import Mathlib

/-!
Verification of the shared research state store (`scripts/state_manager.py`,
`scripts/fact_ledger.py`).

The SQLite tables are embedded as Lean lists kept in rowid (insertion) order.
Timestamps (`created_at`, column default `CURRENT_TIMESTAMP`) are modelled by a
strictly increasing counter `nextTime`, so creation order and timestamp order
coincide, which is the ordering guarantee the store relies on.  Python floats
(`score REAL`, `value_numeric REAL`) are modelled as rationals.  The sqlite3
`Connection.total_changes` counter (a cumulative count of rows modified since
the connection was opened, consulted by `update_node`) is modelled by the
`totalChanges` field.  JSON metadata blobs are treated as opaque strings.
-/

namespace Research

/-- A row of the `nodes` table (GoT thought-graph node). -/
structure Node where
  id : String
  parentId : Option String
  content : String
  score : ℚ
  status : String
  depth : Int
  createdAt : Nat
  meta : Option String
deriving Repr, DecidableEq

/-- A row of the `research_sessions` table. -/
structure Session where
  sessionId : String
  topic : String
  status : String
  meta : Option String
deriving Repr, DecidableEq

/-- A row of the `facts` table; `attr` models the `attribute` column
(`attribute` is reserved in Lean). -/
structure Fact where
  id : Nat
  sessionId : String
  entity : String
  attr : String
  value : String
  valueType : String
  valueNumeric : Option ℚ
  unit : Option String
  confidence : String
  context : Option String
  createdAt : Nat
deriving Repr, DecidableEq

/-- A row of the `entities` table. -/
structure Entity where
  id : Nat
  sessionId : String
  name : String
  entityType : Option String
  description : Option String
deriving Repr, DecidableEq

/-- A row of the `entity_aliases` table (`alias` is UNIQUE). -/
structure EntityAlias where
  canonicalName : String
  aliasName : String
deriving Repr, DecidableEq

/-- A row of the `entity_cooccurrence` table. -/
structure CoRow where
  entityAId : Nat
  entityBId : Nat
  cooccurrenceCount : Nat
  contextSnippets : List String
deriving Repr, DecidableEq

/-- The database state reachable through one thread-local connection. -/
structure DBState where
  nodes : List Node
  sessions : List Session
  facts : List Fact
  entities : List Entity
  aliases : List EntityAlias
  cooccurrence : List CoRow
  nextTime : Nat
  nextFactId : Nat
  nextEntityId : Nat
  totalChanges : Nat
deriving Repr, DecidableEq

/-- The freshly initialised database (AUTOINCREMENT ids start at 1). -/
def DBState.empty : DBState :=
  { nodes := [], sessions := [], facts := [], entities := [], aliases := [],
    cooccurrence := [], nextTime := 0, nextFactId := 1, nextEntityId := 1,
    totalChanges := 0 }

/-- `ORDER BY score DESC, created_at ASC` comparator used by `get_children`. -/
def childOrder (a b : Node) : Bool :=
  decide (b.score < a.score ∨ (a.score = b.score ∧ a.createdAt ≤ b.createdAt))

/-- `ORDER BY score DESC` comparator (no secondary key) used by `keep_best_n`;
the stable sort ties on rowid order, matching the `idx_nodes_score` index scan. -/
def scoreDesc (a b : Node) : Bool :=
  decide (b.score ≤ a.score)

/-- Comparator for the `sorted(children, key=created_at)` step of
`check_circuit_break` (Python sorted is stable). -/
def createdOrder (a b : Node) : Bool :=
  decide (a.createdAt ≤ b.createdAt)

/-- `StateManager.create_node`: INSERT; an `sqlite3.IntegrityError` on a
duplicate primary key is caught and surfaced as `False` with no change. -/
def createNode (db : DBState) (nodeId content : String) (parentId : Option String)
    (score : ℚ) (depth : Int) (meta : Option String) : DBState × Bool :=
  if db.nodes.any (fun nd => nd.id = nodeId) then (db, false)
  else
    ({ db with
        nodes := db.nodes ++
          [{ id := nodeId, parentId := parentId, content := content,
             score := score, status := "pending", depth := depth,
             createdAt := db.nextTime, meta := meta }],
        nextTime := db.nextTime + 1,
        totalChanges := db.totalChanges + 1 }, true)

/-- `StateManager.update_node`: builds an UPDATE from the provided fields,
returns `False` when no field is given, otherwise runs the UPDATE and returns
`conn.total_changes > 0` — the cumulative connection counter, not the rowcount
of this statement. -/
def updateNode (db : DBState) (nodeId : String) (content : Option String)
    (score : Option ℚ) (status : Option String) (meta : Option String) :
    DBState × Bool :=
  if content = none ∧ score = none ∧ status = none ∧ meta = none then (db, false)
  else
    let matched := db.nodes.countP (fun nd => nd.id = nodeId)
    let nodes' := db.nodes.map (fun nd =>
      if nd.id = nodeId then
        { nd with
            content := content.getD nd.content,
            score := score.getD nd.score,
            status := status.getD nd.status,
            meta := match meta with | some m => some m | none => nd.meta }
      else nd)
    let db' := { db with nodes := nodes', totalChanges := db.totalChanges + matched }
    (db', decide (0 < db'.totalChanges))

/-- `StateManager.get_node`: SELECT by id, `None` when absent. -/
def getNode (db : DBState) (nodeId : String) : Option Node :=
  db.nodes.find? (fun nd => nd.id = nodeId)

/-- `StateManager.get_children`: SELECT children ORDER BY score DESC, created_at ASC. -/
def getChildren (db : DBState) (parentId : String) : List Node :=
  (db.nodes.filter (fun nd => nd.parentId = some parentId)).mergeSort childOrder

/-- `StateManager.create_session`: INSERT with status defaulting to `active`;
a duplicate session id raises `IntegrityError`, caught and returned as `False`. -/
def createSession (db : DBState) (sessionId topic : String) (meta : Option String) :
    DBState × Bool :=
  if db.sessions.any (fun s => s.sessionId = sessionId) then (db, false)
  else
    ({ db with
        sessions := db.sessions ++
          [{ sessionId := sessionId, topic := topic, status := "active", meta := meta }],
        totalChanges := db.totalChanges + 1 }, true)

/-- `StateManager.keep_best_n`: SELECT the ids of the top `n` rows in scope
(`ORDER BY score DESC LIMIT n`), then DELETE every row in scope whose id is not
among them; returns the DELETE rowcount.  When the id list is empty it returns
0 without deleting. -/
def keepBestN (db : DBState) (n : Nat) (parentId : Option String) : DBState × Nat :=
  match parentId with
  | some pid =>
    let keepIds :=
      (((db.nodes.filter (fun nd => nd.parentId = some pid)).mergeSort scoreDesc).take n).map
        (fun nd => nd.id)
    if keepIds = [] then (db, 0)
    else
      let survives : Node → Bool := fun nd =>
        decide (nd.parentId ≠ some pid ∨ nd.id ∈ keepIds)
      let nodes' := db.nodes.filter survives
      let deleted := db.nodes.length - nodes'.length
      ({ db with nodes := nodes', totalChanges := db.totalChanges + deleted }, deleted)
  | none =>
    let keepIds := ((db.nodes.mergeSort scoreDesc).take n).map (fun nd => nd.id)
    if keepIds = [] then (db, 0)
    else
      let survives : Node → Bool := fun nd => decide (nd.id ∈ keepIds)
      let nodes' := db.nodes.filter survives
      let deleted := db.nodes.length - nodes'.length
      ({ db with nodes := nodes', totalChanges := db.totalChanges + deleted }, deleted)

/-- The id list selected by the scoped `SELECT id ... ORDER BY score DESC
LIMIT n` of `keep_best_n` (children of one parent). -/
def parentKeepIds (db : DBState) (n : Nat) (pid : String) : List String :=
  (((db.nodes.filter (fun nd => nd.parentId = some pid)).mergeSort scoreDesc).take n).map
    (fun nd => nd.id)

/-- The survivor predicate of the scoped DELETE of `keep_best_n`. -/
def parentSurvives (db : DBState) (n : Nat) (pid : String) : Node → Bool :=
  fun nd => decide (nd.parentId ≠ some pid ∨ nd.id ∈ parentKeepIds db n pid)

/-- The id list selected by the global `SELECT id ... ORDER BY score DESC
LIMIT n` of `keep_best_n`. -/
def globalKeepIds (db : DBState) (n : Nat) : List String :=
  ((db.nodes.mergeSort scoreDesc).take n).map (fun nd => nd.id)

/-- The survivor predicate of the global DELETE of `keep_best_n`. -/
def globalSurvives (db : DBState) (n : Nat) : Node → Bool :=
  fun nd => decide (nd.id ∈ globalKeepIds db n)

/-- The Python slice `l[-k:]`: the last `k` elements, except that `l[-0:]` is
the whole list. -/
def pySliceLast {α : Type} (k : Nat) (l : List α) : List α :=
  if k = 0 then l else l.drop (l.length - k)

/-- The last `k` elements of a list (the reading "the k most recently created
children" has in the specification). -/
def lastN {α : Type} (k : Nat) (l : List α) : List α :=
  l.drop (l.length - k)

/-- Result dictionary of `check_circuit_break`; keys absent from a given return
path are `none`. -/
structure CBResult where
  shouldBreak : Bool
  reason : String
  childrenCount : Option Nat := none
  consecutiveCount : Option Nat := none
  scores : Option (List ℚ) := none
  avgScore : Option ℚ := none
  threshold : Option ℚ := none
  affectedNodes : Option (List String) := none
deriving Repr, DecidableEq

/-- `StateManager.check_circuit_break`: inspects the children of a node; with
fewer children than `consecutiveThreshold` reports `insufficient_data`,
otherwise slices the most recent `consecutiveThreshold` children (Python
`[-k:]`) after a stable sort by `created_at` and breaks exactly when all their
scores are strictly below `scoreThreshold`. -/
def checkCircuitBreak (db : DBState) (nodeId : String) (consecutiveThreshold : Nat)
    (scoreThreshold : ℚ) : CBResult :=
  let children := getChildren db nodeId
  if children.length < consecutiveThreshold then
    { shouldBreak := false, reason := "insufficient_data",
      childrenCount := some children.length }
  else
    let childrenSorted := children.mergeSort createdOrder
    let recentChildren := pySliceLast consecutiveThreshold childrenSorted
    let recentScores := recentChildren.map (fun c => c.score)
    let allLow := recentScores.all (fun s => decide (s < scoreThreshold))
    if allLow then
      { shouldBreak := true, reason := "consecutive_low_scores",
        consecutiveCount := some consecutiveThreshold,
        scores := some recentScores,
        avgScore := some (recentScores.foldl (· + ·) 0 / (recentScores.length : ℚ)),
        threshold := some scoreThreshold,
        affectedNodes := some (recentChildren.map (fun c => c.id)) }
    else
      { shouldBreak := false, reason := "scores_acceptable",
        scores := some recentScores,
        avgScore := some (recentScores.foldl (· + ·) 0 / (recentScores.length : ℚ)) }

/-- Children of a node in stored (rowid) order; order is irrelevant to the
descendant set collected below. -/
def childrenOf (nodes : List Node) (nodeId : String) : List Node :=
  nodes.filter (fun nd => nd.parentId = some nodeId)

/-- Fuel-bounded pre-order collection mirroring the recursive
`_get_all_descendants` (the Python recursion diverges on cyclic parent links;
`nodes.length` fuel suffices on the acyclic states the store builds). -/
def descendantsAux (nodes : List Node) : Nat → String → List String
  | 0, _ => []
  | fuel + 1, nodeId =>
    (childrenOf nodes nodeId).flatMap (fun c => c.id :: descendantsAux nodes fuel c.id)

/-- `StateManager._get_all_descendants`. -/
def getAllDescendants (db : DBState) (nodeId : String) : List String :=
  descendantsAux db.nodes db.nodes.length nodeId

/-- `StateManager.execute_circuit_break`: marks the node `circuit_broken`
(via `update_node`; the JSON metadata written there, which includes a wall
clock timestamp, is abstracted to the reason string), then deletes every
descendant, returning the count and list of deleted ids. -/
def executeCircuitBreak (db : DBState) (nodeId : String) (reason : String) :
    DBState × Nat × List String :=
  let db₁ :=
    match getNode db nodeId with
    | some _ => (updateNode db nodeId none none (some "circuit_broken") (some reason)).1
    | none => db
  let descendants := getAllDescendants db₁ nodeId
  let nodes' := db₁.nodes.filter (fun nd => decide (nd.id ∉ descendants))
  let removed := db₁.nodes.length - nodes'.length
  ({ db₁ with nodes := nodes', totalChanges := db₁.totalChanges + removed },
   descendants.length, descendants)

/-! ### Fact ledger -/

/-- `StateManager.create_fact`: INSERT returning `lastrowid`. -/
def createFact (db : DBState) (sessionId entity attr value valueType : String)
    (valueNumeric : Option ℚ) (unit : Option String) (confidence : String)
    (context : Option String) : DBState × Nat :=
  ({ db with
      facts := db.facts ++
        [{ id := db.nextFactId, sessionId := sessionId, entity := entity,
           attr := attr, value := value, valueType := valueType,
           valueNumeric := valueNumeric, unit := unit, confidence := confidence,
           context := context, createdAt := db.nextTime }],
      nextFactId := db.nextFactId + 1,
      nextTime := db.nextTime + 1,
      totalChanges := db.totalChanges + 1 }, db.nextFactId)

/-- The facts of one (session, entity, attribute) group, in `created_at`
(= insertion) order — the `ORDER BY created_at` inner query of
`detect_conflicts`. -/
def groupFacts (db : DBState) (sessionId entity attr : String) : List Fact :=
  db.facts.filter (fun f =>
    decide (f.sessionId = sessionId ∧ f.entity = entity ∧ f.attr = attr))

/-- Distinct `value` strings of a fact group (`COUNT(DISTINCT value)`). -/
def distinctVals (l : List Fact) : List String :=
  (l.map (fun f => f.value)).dedup

/-- The (entity, attribute) pairs of a session that form a conflict group:
`GROUP BY entity, attribute HAVING COUNT(DISTINCT value) > 1`. -/
def conflictGroupKeys (db : DBState) (sessionId : String) : List (String × String) :=
  (((db.facts.filter (fun f => decide (f.sessionId = sessionId))).map
      (fun f => (f.entity, f.attr))).dedup).filter
    (fun k => decide (1 < (distinctVals (groupFacts db sessionId k.1 k.2)).length))

/-- The numeric part of the severity computation of `detect_conflicts`: with
at least two non-null numeric values, compute `(max - min) / max * 100` — but
only when `max > 0` — and band it; otherwise `minor`. -/
def severityNums : List ℚ → String
  | v₁ :: v₂ :: rest =>
    let maxVal := (v₂ :: rest).foldl max v₁
    let minVal := (v₂ :: rest).foldl min v₁
    if 0 < maxVal then
      let diffPct := (maxVal - minVal) / maxVal * 100
      if 20 < diffPct then "critical"
      else if 5 < diffPct then "moderate"
      else "minor"
    else "minor"
  | _ => "minor"

/-- Severity computation of `detect_conflicts`: severity starts as `minor` and
is recomputed from the non-null numeric values when the group has at least two
facts. -/
def severityOf (gf : List Fact) : String :=
  if 2 ≤ gf.length then severityNums (gf.filterMap (fun f => f.valueNumeric))
  else "minor"

/-- The `conflict_type` field: `"numerical" if group_facts[0]["value_numeric"]
else "scope"` — Python truthiness, so a first numeric value of 0 also yields
`scope`. -/
def conflictTypeOf (gf : List Fact) : String :=
  match gf with
  | f :: _ =>
    match f.valueNumeric with
    | some q => if q = 0 then "scope" else "numerical"
    | none => "scope"
  | [] => "scope"

/-- An element of the list returned by `detect_conflicts`. -/
structure Conflict where
  entity : String
  attr : String
  facts : List Fact
  conflictType : String
  severity : String
deriving Repr, DecidableEq

/-- `StateManager.detect_conflicts`. -/
def detectConflicts (db : DBState) (sessionId : String) : List Conflict :=
  (conflictGroupKeys db sessionId).map (fun k =>
    let gf := groupFacts db sessionId k.1 k.2
    { entity := k.1, attr := k.2, facts := gf,
      conflictType := conflictTypeOf gf, severity := severityOf gf })

/-! ### Entity graph -/

/-- `StateManager.get_canonical_name`: one-step lookup in the global alias
table (`fetchone` returns the first matching row), falling back to the given
name. -/
def getCanonicalName (db : DBState) (name : String) : String :=
  match db.aliases.find? (fun al => al.aliasName = name) with
  | some al => al.canonicalName
  | none => name

/-- `StateManager.create_entity`: resolve the name through the alias table,
then return the id of an existing (session, canonical-name) entity or insert a
new row and return its `lastrowid`. -/
def createEntity (db : DBState) (sessionId name : String)
    (entityType description : Option String) : DBState × Nat :=
  let canonical := getCanonicalName db name
  match db.entities.find? (fun e => e.sessionId = sessionId ∧ e.name = canonical) with
  | some e => (db, e.id)
  | none =>
    ({ db with
        entities := db.entities ++
          [{ id := db.nextEntityId, sessionId := sessionId, name := canonical,
             entityType := entityType, description := description }],
        nextEntityId := db.nextEntityId + 1,
        totalChanges := db.totalChanges + 1 }, db.nextEntityId)

/-- `StateManager.add_entity_alias`: INSERT into the globally UNIQUE `alias`
column; `IntegrityError` on a duplicate alias is caught and returned as
`False` with no change. -/
def addEntityAlias (db : DBState) (canonicalName aliasName : String) :
    DBState × Bool :=
  if db.aliases.any (fun al => al.aliasName = aliasName) then (db, false)
  else
    ({ db with
        aliases := db.aliases ++
          [{ canonicalName := canonicalName, aliasName := aliasName }],
        totalChanges := db.totalChanges + 1 }, true)

/-- Update the first cooccurrence row matching the ordered pair (the SQL
UPDATE addresses the row found by `fetchone` through its rowid). -/
def updateFirstCo (a b : Nat) (f : CoRow → CoRow) : List CoRow → List CoRow
  | [] => []
  | r :: rest =>
    if r.entityAId = a ∧ r.entityBId = b then f r :: rest
    else r :: updateFirstCo a b f rest

/-- `StateManager.record_cooccurrence`: reorder the pair so the lower id comes
first, then either bump the counter of the existing row (appending the context
and keeping only the last 10 snippets, Python `snippets[-10:]`) or insert a
fresh row with count 1. -/
def recordCooccurrence (db : DBState) (entityAId entityBId : Nat)
    (context : String) : DBState :=
  let a := if entityBId < entityAId then entityBId else entityAId
  let b := if entityBId < entityAId then entityAId else entityBId
  match db.cooccurrence.find? (fun r => r.entityAId = a ∧ r.entityBId = b) with
  | some _ =>
    { db with
        cooccurrence := updateFirstCo a b (fun r =>
          { r with
              cooccurrenceCount := r.cooccurrenceCount + 1,
              contextSnippets := lastN 10 (r.contextSnippets ++ [context]) })
          db.cooccurrence,
        totalChanges := db.totalChanges + 1 }
  | none =>
    { db with
        cooccurrence := db.cooccurrence ++
          [{ entityAId := a, entityBId := b, cooccurrenceCount := 1,
             contextSnippets := [context] }],
        totalChanges := db.totalChanges + 1 }

/-- The counter stored for an unordered entity pair (0 when no row exists);
reads the first row for the canonically ordered pair, like the code does. -/
def coCount (db : DBState) (entityAId entityBId : Nat) : Nat :=
  let a := if entityBId < entityAId then entityBId else entityAId
  let b := if entityBId < entityAId then entityAId else entityBId
  match db.cooccurrence.find? (fun r => r.entityAId = a ∧ r.entityBId = b) with
  | some r => r.cooccurrenceCount
  | none => 0

/-- The context snippets stored for an unordered entity pair ([] when no row
exists). -/
def coSnippets (db : DBState) (entityAId entityBId : Nat) : List String :=
  let a := if entityBId < entityAId then entityBId else entityAId
  let b := if entityBId < entityAId then entityAId else entityBId
  match db.cooccurrence.find? (fun r => r.entityAId = a ∧ r.entityBId = b) with
  | some r => r.contextSnippets
  | none => []

/-! ### Fact value parser (`FactLedger.parse_value`)

The regular expressions of `parse_value` are embedded as character-list
scanners.  Because the character classes of each regex (digits/commas/dots,
whitespace, letters) are disjoint, the greedy decomposition below is the unique
match, so no backtracking needs to be modelled.  Python `float` on a string of
digits and at most one dot is modelled exactly over the rationals. -/


def isNumChar (c : Char) : Bool := c.isDigit || c == ',' || c == '.'

def isSpaceChar (c : Char) : Bool :=
  c == ' ' || c == '\t' || c == '\n' || c == '\r' || c.toNat == 11 || c.toNat == 12

def pyStrip (l : List Char) : List Char :=
  ((l.dropWhile isSpaceChar).reverse.dropWhile isSpaceChar).reverse

def digitsVal (l : List Char) : Nat :=
  l.foldl (fun acc c => 10 * acc + (c.toNat - 48)) 0

def parseFloatParts (s : List Char) : Option (Nat × Nat × Nat) :=
  if (s.all (fun c => c.isDigit || c == '.')) && (s.count '.' ≤ 1) && s.any Char.isDigit then
    let intPart := s.takeWhile (fun c => c != '.')
    let fracPart := (s.dropWhile (fun c => c != '.')).drop 1
    some (digitsVal intPart, digitsVal fracPart, fracPart.length)
  else none

def pyFloat (s : List Char) : Option ℚ :=
  (parseFloatParts s).map (fun p => (p.1 : ℚ) + (p.2.1 : ℚ) / (10 : ℚ) ^ p.2.2)

def currencySuffix (l : List Char) : Option String :=
  let s : String := ⟨l.map Char.toLower⟩
  if s = "b" then some "B" else if s = "billion" then some "BILLION"
  else if s = "m" then some "M" else if s = "million" then some "MILLION"
  else if s = "k" then some "K" else if s = "thousand" then some "THOUSAND"
  else if s = "t" then some "T" else if s = "trillion" then some "TRILLION"
  else none

def currencyMatch (l : List Char) : Option (List Char × Option String) :=
  let body := match l with | '$' :: rest => rest | _ => l
  let num := body.takeWhile isNumChar
  let rest := (body.dropWhile isNumChar).dropWhile isSpaceChar
  if num.isEmpty then none
  else if rest.isEmpty then some (num, none)
  else
    match currencySuffix rest with
    | some suf => some (num, some suf)
    | none => none

def pctMatch (l : List Char) : Option (List Char) :=
  let num := l.takeWhile isNumChar
  let rest := (l.dropWhile isNumChar).dropWhile isSpaceChar
  if num.isEmpty then none
  else if rest == ['%'] then some num
  else none

def monthNames : List String :=
  ["january", "february", "march", "april", "may", "june", "july",
   "august", "september", "october", "november", "december"]

def dateISO (l : List Char) : Bool :=
  match l with
  | [a, b, c, d, h₁, e, f, h₂, g, h] =>
    a.isDigit && b.isDigit && c.isDigit && d.isDigit && h₁ == '-' &&
      e.isDigit && f.isDigit && h₂ == '-' && g.isDigit && h.isDigit
  | _ => false

def dateYear (l : List Char) : Bool := l.length == 4 && l.all Char.isDigit

def dateVerbose (l : List Char) : Bool :=
  monthNames.any (fun m =>
    let low := l.map Char.toLower
    let ml := m.data
    low.take ml.length == ml &&
      (let rest := low.drop ml.length
       let sp₁ := rest.takeWhile isSpaceChar
       let r₁ := rest.dropWhile isSpaceChar
       let day := r₁.takeWhile Char.isDigit
       let r₂ := r₁.drop day.length
       let r₃ := match r₂ with | ',' :: t => t | _ => r₂
       let sp₂ := r₃.takeWhile isSpaceChar
       let r₄ := r₃.dropWhile isSpaceChar
       decide (1 ≤ sp₁.length) && (day.length == 1 || day.length == 2) &&
         decide (1 ≤ sp₂.length) && r₄.length == 4 && r₄.all Char.isDigit))

def isDate (l : List Char) : Bool := dateISO l || dateYear l || dateVerbose l

def plainMatch (l : List Char) : Option (List Char) :=
  if l.isEmpty then none
  else if l.all isNumChar then some l
  else none

def currencyUnit : Option String → String
  | some "B" | some "BILLION" => "USD billion"
  | some "M" | some "MILLION" => "USD million"
  | some "K" | some "THOUSAND" => "USD thousand"
  | some "T" | some "TRILLION" => "USD trillion"
  | some _ => "USD"
  | none => "USD"

def currencyMultiplier : Option String → ℚ
  | some "B" | some "BILLION" => 1000000000
  | some "M" | some "MILLION" => 1000000
  | some "K" | some "THOUSAND" => 1000
  | some "T" | some "TRILLION" => 1000000000000
  | some _ => 1
  | none => 1

def normalizeCurrency (suffix : Option String) (numeric : ℚ) : ℚ :=
  let multiplier := currencyMultiplier suffix
  if 1000000000 ≤ multiplier then numeric
  else if multiplier = 1000000 then numeric / 1000
  else if multiplier = 1000 then numeric / 1000000
  else if multiplier = 1000000000000 then numeric * 1000
  else numeric

def stripCommas (l : List Char) : List Char := l.filter (fun c => c != ',')

def stageDatePlain (l : List Char) : Option ℚ × String × Option String :=
  if isDate l then (none, "date", none)
  else
    match plainMatch l with
    | some num =>
      match pyFloat (stripCommas num) with
      | some q => (some q, "number", none)
      | none => (none, "text", none)
    | none => (none, "text", none)

def stagePct (l : List Char) : Option ℚ × String × Option String :=
  match pctMatch l with
  | some num =>
    match pyFloat (stripCommas num) with
    | some q => (some q, "percentage", some "percent")
    | none => stageDatePlain l
  | none => stageDatePlain l

def parseValue (value : String) : Option ℚ × String × Option String :=
  let l := pyStrip value.data
  match currencyMatch l with
  | some (num, suffix) =>
    match pyFloat (stripCommas num) with
    | some q => (some (normalizeCurrency suffix q), "currency", some (currencyUnit suffix))
    | none => stagePct l
  | none => stagePct l

/-! ### Stated invariants and spec-side definitions -/

/-- The depth invariant of the specification: every stored node with a stored
parent sits exactly one level below it. -/
def depthInvariant (nodes : List Node) : Prop :=
  ∀ n ∈ nodes, ∀ p ∈ nodes, n.parentId = some p.id → n.depth = p.depth + 1

instance (nodes : List Node) : Decidable (depthInvariant nodes) := by
  unfold depthInvariant
  infer_instance

/-- Modelled from the spec: the severity band the specification assigns to the
numeric values of a conflicting group, `(max − min) / max` compared against 20%
and 5% (used to compare the specified severity with the implemented one). -/
def claimSeverity (nums : List ℚ) : String :=
  match nums with
  | v :: rest =>
    let mx := rest.foldl max v
    let mn := rest.foldl min v
    if 1/5 < (mx - mn) / mx then "critical"
    else if 1/20 < (mx - mn) / mx then "moderate"
    else "minor"
  | [] => "minor"

/-! ### Concrete states used by the example theorems

Each state is reachable through the store API (`create_node` inserts with
status `pending`; `update_node` can then set any status; `create_fact` inserts
rows in timestamp order). -/

/-- Shorthand for a fact row in the example states. -/
def mkFact (id : Nat) (sid entity attr value : String) (valueNumeric : Option ℚ)
    (createdAt : Nat) : Fact :=
  { id := id, sessionId := sid, entity := entity, attr := attr, value := value,
    valueType := "text", valueNumeric := valueNumeric, unit := none,
    confidence := "Medium", context := none, createdAt := createdAt }

/-- Shorthand for a node row in the example states. -/
def mkNode (id : String) (parentId : Option String) (score : ℚ) (status : String)
    (depth : Int) (createdAt : Nat) : Node :=
  { id := id, parentId := parentId, content := id, score := score,
    status := status, depth := depth, createdAt := createdAt, meta := none }

/-- The end-to-end pruning scenario of the specification: root `r` with three
children scored 9, 4 and 3.5; additionally `c3` has already been marked
`pruned` and the others `active` (via `update_node`) to exercise the status
handling of `keep_best_n`. -/
def c1db : DBState :=
  { DBState.empty with
      nodes := [mkNode "r" none 5 "active" 0 0,
                mkNode "c1" (some "r") 9 "active" 1 1,
                mkNode "c2" (some "r") 4 "active" 1 2,
                mkNode "c3" (some "r") (mkRat 7 2) "pruned" 1 3],
      nextTime := 4 }

/-- A root plus a child created with an inconsistent caller-supplied depth. -/
def c3db : DBState :=
  (createNode (createNode DBState.empty "r" "root" none 0 0 none).1
    "c" "child" (some "r") 0 5 none).1

/-- A root plus a child created with the consistent depth `parent.depth + 1`. -/
def c3good : DBState :=
  (createNode (createNode DBState.empty "r" "root" none 0 0 none).1
    "c" "child" (some "r") 0 1 none).1

/-- A parent with one high-scoring child (score 7). -/
def c4db : DBState :=
  { DBState.empty with
      nodes := [mkNode "p" none 5 "pending" 0 0,
                mkNode "c" (some "p") 7 "pending" 1 1],
      nextTime := 2 }

/-- A parent with three low-scoring children (scores 1, 2, 3). -/
def c4db₃ : DBState :=
  { DBState.empty with
      nodes := [mkNode "p" none 5 "pending" 0 0,
                mkNode "c1" (some "p") 1 "pending" 1 1,
                mkNode "c2" (some "p") 2 "pending" 1 2,
                mkNode "c3" (some "p") 3 "pending" 1 3],
      nextTime := 4 }

/-- A state holding one node, one session and one alias, for the duplicate-key
examples. -/
def c8db : DBState :=
  (addEntityAlias
    ((createSession ((createNode DBState.empty "n1" "content" none 0 0 none).1)
      "s1" "topic" none).1)
    "X" "Y").1

/-- A state on whose connection one row has already been written. -/
def c9db : DBState :=
  (createNode DBState.empty "a" "content" none 0 0 none).1

/-- Two facts with identical values for the same (entity, attribute). -/
def c2dbIdent : DBState :=
  { DBState.empty with
      facts := [mkFact 1 "s" "E" "A" "10" (some 10) 0,
                mkFact 2 "s" "E" "A" "10" (some 10) 1] }

/-- Two facts with distinct values `10` and `15`. -/
def c2dbTwo : DBState :=
  { DBState.empty with
      facts := [mkFact 1 "s" "E" "A" "10" none 0,
                mkFact 2 "s" "E" "A" "15" none 1] }

/-- Two facts with numeric values 100 and 125. -/
def c2db125 : DBState :=
  { DBState.empty with
      facts := [mkFact 1 "s" "E" "A" "100" (some 100) 0,
                mkFact 2 "s" "E" "A" "125" (some 125) 1] }

/-- Two facts with numeric values 100 and 10. -/
def c2db110 : DBState :=
  { DBState.empty with
      facts := [mkFact 1 "s" "E" "A" "100" (some 100) 0,
                mkFact 2 "s" "E" "A" "10" (some 10) 1] }

/-- Two conflicting facts whose numeric values are both 0 (maximum not
strictly positive). -/
def c10db : DBState :=
  { DBState.empty with
      facts := [mkFact 1 "s" "E" "A" "0" (some 0) 0,
                mkFact 2 "s" "E" "A" "zero" (some 0) 1] }

/-- The conflict record `detect_conflicts` reports on `c10db`. -/
def c10conflict : Conflict :=
  { entity := "E", attr := "A",
    facts := [mkFact 1 "s" "E" "A" "0" (some 0) 0,
              mkFact 2 "s" "E" "A" "zero" (some 0) 1],
    conflictType := "scope", severity := "minor" }

/-- The entity state after `create_entity("S","OpenAI")`. -/
def c6db₁ : DBState := (createEntity DBState.empty "S" "OpenAI" none none).1

/-- The entity state after additionally `add_entity_alias("OpenAI","Open AI")`. -/
def c6db₂ : DBState := (addEntityAlias c6db₁ "OpenAI" "Open AI").1

/-! ### Helper lemmas -/

theorem lastN_length_le {α : Type} (k : Nat) (l : List α) : (lastN k l).length ≤ k := by
  simp only [lastN, List.length_drop]
  omega

theorem find?_append_of_none {α : Type} (p : α → Bool) {l₁ : List α} (l₂ : List α)
    (h : l₁.find? p = none) : (l₁ ++ l₂).find? p = l₂.find? p := by
  induction l₁ with
  | nil => rfl
  | cons x t ih =>
    cases hx : p x with
    | true =>
      rw [List.find?_cons_of_pos _ hx] at h
      exact absurd h (by simp)
    | false =>
      rw [List.find?_cons_of_neg _ (by simp [hx])] at h
      rw [List.cons_append, List.find?_cons_of_neg _ (by simp [hx])]
      exact ih h

theorem find?_updateFirstCo (a b : Nat) (f : CoRow → CoRow)
    (hf : ∀ r, (f r).entityAId = r.entityAId ∧ (f r).entityBId = r.entityBId)
    (l : List CoRow) :
    (updateFirstCo a b f l).find? (fun r => r.entityAId = a ∧ r.entityBId = b) =
      (l.find? (fun r => r.entityAId = a ∧ r.entityBId = b)).map f := by
  induction l with
  | nil => rfl
  | cons r t ih =>
    by_cases h : r.entityAId = a ∧ r.entityBId = b
    · have hfr : (f r).entityAId = a ∧ (f r).entityBId = b := by
        rw [(hf r).1, (hf r).2]; exact h
      rw [updateFirstCo, if_pos h]
      rw [List.find?_cons_of_pos _ (by simpa using hfr),
        List.find?_cons_of_pos _ (by simpa using h)]
      rfl
    · rw [updateFirstCo, if_neg h]
      rw [List.find?_cons_of_neg _ (by simpa using h),
        List.find?_cons_of_neg _ (by simpa using h)]
      exact ih

theorem length_filter_add_length_filter_not {α : Type} (p : α → Bool) (l : List α) :
    (l.filter p).length + (l.filter (fun x => !(p x))).length = l.length := by
  induction l with
  | nil => rfl
  | cons x t ih => cases h : p x <;> simp [List.filter_cons, h, ← ih] <;> omega

/-! ### C7: record_cooccurrence -/

/-- C7: `record_cooccurrence(a, b, context)` and `record_cooccurrence(b, a,
context)` produce identical states (the pair is reordered so the lower entity
id comes first before the upsert); each call increments the one shared counter
of the unordered pair by exactly one; the stored snippet list afterwards is the
last ten of the previous snippets extended by the new context, hence at most
the 10 most recent snippets are retained. -/
theorem recordCooccurrence_canonical (db : DBState) (a b : Nat) (ctx : String) :
    recordCooccurrence db a b ctx = recordCooccurrence db b a ctx ∧
    coCount (recordCooccurrence db a b ctx) a b = coCount db a b + 1 ∧
    coSnippets (recordCooccurrence db a b ctx) a b =
      lastN 10 (coSnippets db a b ++ [ctx]) ∧
    (coSnippets (recordCooccurrence db a b ctx) a b).length ≤ 10 := by
  have hx : (if b < a then b else a) = (if a < b then a else b) := by
    split_ifs <;> omega
  have hy : (if b < a then a else b) = (if a < b then b else a) := by
    split_ifs <;> omega
  refine ⟨?_, ?_⟩
  · rw [recordCooccurrence, recordCooccurrence, hx, hy]
  · simp only [recordCooccurrence, coCount, coSnippets]
    generalize (if b < a then b else a) = x
    generalize (if b < a then a else b) = y
    cases hf : db.cooccurrence.find?
        (fun r => decide (r.entityAId = x ∧ r.entityBId = y)) with
    | none =>
      simp only [hf]
      rw [find?_append_of_none _ _ hf]
      simp [lastN]
    | some r =>
      simp only [hf]
      rw [find?_updateFirstCo x y
        (fun r => { r with
            cooccurrenceCount := r.cooccurrenceCount + 1,
            contextSnippets := lastN 10 (r.contextSnippets ++ [ctx]) })
        (fun r => ⟨rfl, rfl⟩) db.cooccurrence, hf]
      exact ⟨rfl, rfl, lastN_length_le 10 _⟩

/-! ### C8: duplicate keys surface as False -/

/-- C8: the idempotent creators return `False` instead of raising when the
insert hits an existing key — `create_node` on an existing node id,
`create_session` on an existing session id and `add_entity_alias` on an
existing alias all return `False` and leave the state (hence the existing row)
unchanged. -/
theorem duplicate_insert_returns_false
    (db : DBState) (nodeId content : String) (parentId : Option String)
    (score : ℚ) (depth : Int) (meta : Option String)
    (sid topic : String) (smeta : Option String) (canonicalName aliasName : String)
    (hn : ∃ nd ∈ db.nodes, nd.id = nodeId)
    (hs : ∃ s ∈ db.sessions, s.sessionId = sid)
    (ha : ∃ al ∈ db.aliases, al.aliasName = aliasName) :
    createNode db nodeId content parentId score depth meta = (db, false) ∧
    createSession db sid topic smeta = (db, false) ∧
    addEntityAlias db canonicalName aliasName = (db, false) := by
  obtain ⟨nd, hm, hid⟩ := hn
  obtain ⟨s, hsm, hsid⟩ := hs
  obtain ⟨al, ham, hal⟩ := ha
  refine ⟨?_, ?_, ?_⟩
  · have h : db.nodes.any (fun x => x.id = nodeId) = true :=
      List.any_eq_true.mpr ⟨nd, hm, by simp [hid]⟩
    simp [createNode, h]
  · have h : db.sessions.any (fun x => x.sessionId = sid) = true :=
      List.any_eq_true.mpr ⟨s, hsm, by simp [hsid]⟩
    simp [createSession, h]
  · have h : db.aliases.any (fun x => x.aliasName = aliasName) = true :=
      List.any_eq_true.mpr ⟨al, ham, by simp [hal]⟩
    simp [addEntityAlias, h]

/-- Witness for C8 on a state holding node `n1`, session `s1` and alias `Y`. -/
theorem duplicate_insert_returns_false_witness :
    createNode c8db "n1" "other" none 1 2 none = (c8db, false) ∧
    createSession c8db "s1" "other" none = (c8db, false) ∧
    addEntityAlias c8db "Z" "Y" = (c8db, false) :=
  duplicate_insert_returns_false c8db "n1" "other" none 1 2 none "s1" "other" none
    "Z" "Y" (by decide) (by decide) (by decide)

/-! ### C9: lookups by absent id -/

/-- C9 (code bug exhibit): `get_node` on an absent id does return `None`, but
`update_node` on an absent id returns `conn.total_changes > 0` — a cumulative
connection counter — so after any earlier successful write (here the creation
of node `a`) it returns `True` even though no row was updated. -/
theorem updateNode_absent_id_returns_true :
    getNode c9db "missing" = none ∧
    (updateNode c9db "missing" none (some 1) none none).2 = true ∧
    (updateNode c9db "missing" none (some 1) none none).1.nodes = c9db.nodes :=
  ⟨rfl, rfl, rfl⟩

/-! ### C6: create_entity is idempotent under alias resolution -/

/-- C6: in the concrete scenario, `create_entity("OpenAI")` then
`add_entity_alias("OpenAI","Open AI")` then `create_entity("Open AI")` returns
entity id 1 both times and the second call inserts nothing; in general, two
consecutive `create_entity` calls whose names resolve to the same canonical
form return the same id and the second call leaves the state unchanged. -/
theorem createEntity_idempotent_under_alias :
    ((createEntity DBState.empty "S" "OpenAI" none none).2 = 1 ∧
     (createEntity c6db₂ "S" "Open AI" none none).2 = 1 ∧
     (createEntity c6db₂ "S" "Open AI" none none).1 = c6db₂) ∧
    (∀ (db : DBState) (sid n₁ n₂ : String) (et₁ ds₁ et₂ ds₂ : Option String),
      getCanonicalName db n₁ = getCanonicalName db n₂ →
      (createEntity (createEntity db sid n₁ et₁ ds₁).1 sid n₂ et₂ ds₂).2 =
        (createEntity db sid n₁ et₁ ds₁).2 ∧
      (createEntity (createEntity db sid n₁ et₁ ds₁).1 sid n₂ et₂ ds₂).1 =
        (createEntity db sid n₁ et₁ ds₁).1) := by
  refine ⟨⟨by decide, by decide, by decide⟩, ?_⟩
  intro db sid n₁ n₂ et₁ ds₁ et₂ ds₂ h
  cases hf : db.entities.find?
      (fun e => decide (e.sessionId = sid ∧ e.name = getCanonicalName db n₁)) with
  | some e =>
    have h₁ : createEntity db sid n₁ et₁ ds₁ = (db, e.id) := by
      simp only [createEntity, hf]
    have hf₂ : db.entities.find?
        (fun e => decide (e.sessionId = sid ∧ e.name = getCanonicalName db n₂)) =
          some e := by
      rw [← h]; exact hf
    have h₂ : createEntity db sid n₂ et₂ ds₂ = (db, e.id) := by
      simp only [createEntity, hf₂]
    rw [h₁, h₂]
    exact ⟨rfl, rfl⟩
  | none =>
    have h₁ : createEntity db sid n₁ et₁ ds₁ =
        ({ db with
            entities := db.entities ++
              [{ id := db.nextEntityId, sessionId := sid,
                 name := getCanonicalName db n₁, entityType := et₁,
                 description := ds₁ }],
            nextEntityId := db.nextEntityId + 1,
            totalChanges := db.totalChanges + 1 }, db.nextEntityId) := by
      simp only [createEntity, hf]
    rw [h₁]
    have halias : getCanonicalName
        ({ db with
            entities := db.entities ++
              [{ id := db.nextEntityId, sessionId := sid,
                 name := getCanonicalName db n₁, entityType := et₁,
                 description := ds₁ }],
            nextEntityId := db.nextEntityId + 1,
            totalChanges := db.totalChanges + 1 } : DBState) n₂ =
          getCanonicalName db n₁ := by
      rw [h]; rfl
    have hf₂ : (db.entities ++
        ([{ id := db.nextEntityId, sessionId := sid,
            name := getCanonicalName db n₁, entityType := et₁,
            description := ds₁ }] : List Entity)).find?
          (fun e : Entity =>
            decide (e.sessionId = sid ∧ e.name = getCanonicalName db n₁)) =
        some { id := db.nextEntityId, sessionId := sid,
               name := getCanonicalName db n₁, entityType := et₁,
               description := ds₁ } := by
      rw [find?_append_of_none _ _ hf]
      simp
    simp only [createEntity, halias, hf₂]
    exact ⟨trivial, trivial⟩

/-- Witness for C6: the scenario state satisfies the alias hypothesis and the
general idempotence theorem applies to it. -/
theorem createEntity_idempotent_under_alias_witness :
    getCanonicalName c6db₂ "OpenAI" = getCanonicalName c6db₂ "Open AI" ∧
    (createEntity (createEntity c6db₂ "S" "OpenAI" none none).1 "S" "Open AI"
      none none).2 = (createEntity c6db₂ "S" "OpenAI" none none).2 :=
  ⟨by decide,
   (createEntity_idempotent_under_alias.2 c6db₂ "S" "OpenAI" "Open AI"
     none none none none (by decide)).1⟩

/-! ### Severity helper lemmas -/

theorem foldl_min_le_foldl_max (l : List ℚ) :
    ∀ a b : ℚ, a ≤ b → l.foldl min a ≤ l.foldl max b := by
  induction l with
  | nil => intro a b h; simpa using h
  | cons c t ih =>
    intro a b h
    exact ih _ _ (le_trans (min_le_left a c) (le_trans h (le_max_left b c)))

theorem severityOf_eq_claimSeverity (gf : List Fact) (v w : ℚ) (rest : List ℚ)
    (hn : gf.filterMap (fun f => f.valueNumeric) = v :: w :: rest) :
    severityOf gf = claimSeverity (v :: w :: rest) := by
  have hlen : 2 ≤ gf.length := by
    have hle := List.length_filterMap_le (fun f => f.valueNumeric) gf
    rw [hn] at hle
    simp only [List.length_cons] at hle
    omega
  rw [severityOf, if_pos hlen, hn]
  simp only [claimSeverity, severityNums]
  set mx := (w :: rest).foldl max v with hmx
  set mn := (w :: rest).foldl min v with hmn
  by_cases hpos : 0 < mx
  · rw [if_pos hpos]
    have h20 : (20 < (mx - mn) / mx * 100) ↔ (1/5 < (mx - mn) / mx) := by
      constructor <;> intro <;> linarith
    have h5 : (5 < (mx - mn) / mx * 100) ↔ (1/20 < (mx - mn) / mx) := by
      constructor <;> intro <;> linarith
    by_cases h₁ : 20 < (mx - mn) / mx * 100
    · rw [if_pos h₁, if_pos (h20.mp h₁)]
    · rw [if_neg h₁, if_neg (fun hh => h₁ (h20.mpr hh))]
      by_cases h₂ : 5 < (mx - mn) / mx * 100
      · rw [if_pos h₂, if_pos (h5.mp h₂)]
      · rw [if_neg h₂, if_neg (fun hh => h₂ (h5.mpr hh))]
  · rw [if_neg hpos]
    have hmnle : mn ≤ mx := foldl_min_le_foldl_max _ v v le_rfl
    have hdiv : (mx - mn) / mx ≤ 0 := by
      rcases lt_or_eq_of_le (not_lt.mp hpos) with hlt | heq
      · exact div_nonpos_of_nonneg_of_nonpos (by linarith) (le_of_lt hlt)
      · rw [heq, div_zero]
    rw [if_neg (not_lt.mpr (le_trans hdiv (by norm_num))),
      if_neg (not_lt.mpr (le_trans hdiv (by norm_num)))]

theorem severityOf_nonpos_max (gf : List Fact) (v w : ℚ) (rest : List ℚ)
    (hn : gf.filterMap (fun f => f.valueNumeric) = v :: w :: rest)
    (hmax : (w :: rest).foldl max v ≤ 0) : severityOf gf = "minor" := by
  have hlen : 2 ≤ gf.length := by
    have hle := List.length_filterMap_le (fun f => f.valueNumeric) gf
    rw [hn] at hle
    simp only [List.length_cons] at hle
    omega
  rw [severityOf, if_pos hlen, hn]
  simp only [severityNums]
  rw [if_neg (not_lt.mpr hmax)]

/-! ### C10: the severity division is guarded by max > 0 -/

/-- C10: for any conflict group reported by `detect_conflicts` whose facts
carry at least two non-null numeric values with a maximum of zero or less, the
percentage computation is skipped and the severity is reported as `minor` (the
division `(max - min) / max` is performed only under the guard `max > 0`). -/
theorem detectConflicts_severity_guard (db : DBState) (sid : String)
    (c : Conflict) (hc : c ∈ detectConflicts db sid) (v w : ℚ) (rest : List ℚ)
    (hn : c.facts.filterMap (fun f => f.valueNumeric) = v :: w :: rest)
    (hmax : (w :: rest).foldl max v ≤ 0) :
    c.severity = "minor" := by
  obtain ⟨k, hk, hck⟩ := List.mem_map.mp hc
  have hfacts : c.facts = groupFacts db sid k.1 k.2 := by rw [← hck]
  have hsev : c.severity = severityOf (groupFacts db sid k.1 k.2) := by rw [← hck]
  rw [hfacts] at hn
  rw [hsev]
  exact severityOf_nonpos_max _ v w rest hn hmax

/-- Witness for C10: two conflicting facts both valued 0 (maximum not
positive) are reported with severity `minor` via the guard theorem. -/
theorem detectConflicts_severity_guard_witness :
    ∃ c ∈ detectConflicts c10db "s",
      c.facts.filterMap (fun f => f.valueNumeric) = [0, 0] ∧
      c.severity = "minor" := by
  have hmem : c10conflict ∈ detectConflicts c10db "s" := by decide
  exact ⟨_, hmem, by decide,
    detectConflicts_severity_guard c10db "s" _ hmem 0 0 [] (by decide) (by decide)⟩

/-! ### C2: detect_conflicts -/

theorem countP_key_nodup (e a : String) (keys : List (String × String))
    (hnd : keys.Nodup) :
    (keys.countP (fun k => decide (k.1 = e ∧ k.2 = a)) = 1) ↔ (e, a) ∈ keys := by
  induction keys with
  | nil => simp
  | cons k t ih =>
    obtain ⟨hknot, hndt⟩ := List.nodup_cons.mp hnd
    obtain ⟨k₁, k₂⟩ := k
    rw [List.countP_cons]
    by_cases hk : k₁ = e ∧ k₂ = a
    · have hzero : t.countP (fun k => decide (k.1 = e ∧ k.2 = a)) = 0 := by
        rw [List.countP_eq_zero]
        intro x hx
        simp only [decide_eq_true_eq]
        rintro ⟨h₁, h₂⟩
        have hxk : x = (k₁, k₂) := by
          obtain ⟨x₁, x₂⟩ := x
          simp only at h₁ h₂
          rw [Prod.mk.injEq]
          exact ⟨h₁.trans hk.1.symm, h₂.trans hk.2.symm⟩
        rw [hxk] at hx
        exact hknot hx
      simp only [hk.1, hk.2] at hknot
      simp [hk.1, hk.2, hzero]
      intro x₁ x₂ hx h₁ h₂
      subst h₁; subst h₂
      exact hknot hx
    · rw [if_neg (by simpa using hk)]
      rw [Nat.add_zero, ih hndt, List.mem_cons]
      have hne : ((e, a) : String × String) ≠ (k₁, k₂) := by
        intro hh
        rw [Prod.mk.injEq] at hh
        exact hk ⟨hh.1.symm, hh.2.symm⟩
      constructor
      · exact Or.inr
      · rintro (hh | hh)
        · exact absurd hh hne
        · exact hh

theorem mem_conflictGroupKeys (db : DBState) (sid e a : String) :
    (e, a) ∈ conflictGroupKeys db sid ↔
      1 < (distinctVals (groupFacts db sid e a)).length := by
  rw [conflictGroupKeys, List.mem_filter]
  constructor
  · rintro ⟨hmem, hlt⟩
    exact of_decide_eq_true hlt
  · intro hlt
    refine ⟨?_, decide_eq_true hlt⟩
    have hne : groupFacts db sid e a ≠ [] := by
      intro hemp
      rw [hemp] at hlt
      simp [distinctVals] at hlt
    obtain ⟨f, hf⟩ := List.exists_mem_of_ne_nil _ hne
    obtain ⟨hfdb, hfpred⟩ := List.mem_filter.mp hf
    simp only [decide_eq_true_eq] at hfpred
    rw [List.mem_dedup, List.mem_map]
    refine ⟨f, ?_, ?_⟩
    · rw [List.mem_filter]
      exact ⟨hfdb, by simp [hfpred.1]⟩
    · rw [hfpred.2.1, hfpred.2.2]

/-- C2: `detect_conflicts` reports one conflict per (entity, attribute) group
having more than one distinct value (identical values: none); for a group with
at least two non-null numeric values the severity equals the band of
`(max − min) / max` (above 20% critical, above 5% moderate, else minor; the
values 100 and 125 give moderate, 100 and 10 give critical), and a group
without two numeric values gets `minor`. -/
theorem detectConflicts_spec :
    (detectConflicts c2dbIdent "s" = []) ∧
    ((detectConflicts c2dbTwo "s").map (fun c => (c.entity, c.attr)) = [("E", "A")]) ∧
    ((detectConflicts c2db125 "s").map (fun c => c.severity) = ["moderate"]) ∧
    ((detectConflicts c2db110 "s").map (fun c => c.severity) = ["critical"]) ∧
    (∀ (db : DBState) (sid e a : String),
      ((detectConflicts db sid).countP
          (fun c => decide (c.entity = e ∧ c.attr = a)) = 1 ↔
        1 < (distinctVals (groupFacts db sid e a)).length)) ∧
    (∀ (db : DBState) (sid : String) (c : Conflict), c ∈ detectConflicts db sid →
      (∀ (v w : ℚ) (rest : List ℚ),
        c.facts.filterMap (fun f => f.valueNumeric) = v :: w :: rest →
          c.severity = claimSeverity (v :: w :: rest)) ∧
      ((c.facts.filterMap (fun f => f.valueNumeric)).length < 2 →
        c.severity = "minor")) := by
  refine ⟨by decide, by decide, ?_, ?_, ?_, ?_⟩
  · -- values 100 and 125: (125-100)/125*100 = 20, not above 20 but above 5
    have hsev : severityNums [(100 : ℚ), 125] = "moderate" := by
      simp only [severityNums, List.foldl,
        show max (100 : ℚ) 125 = 125 from by norm_num [max_def],
        show min (100 : ℚ) 125 = 100 from by norm_num [min_def]]
      norm_num
    have hfm : (groupFacts c2db125 "s" "E" "A").filterMap
        (fun f => f.valueNumeric) = [(100 : ℚ), 125] := by decide
    have hkeys : conflictGroupKeys c2db125 "s" = [("E", "A")] := by decide
    rw [detectConflicts, hkeys]
    simp only [List.map_cons, List.map_nil, severityOf]
    rw [if_pos (by decide), hfm, hsev]
  · -- values 100 and 10: (100-10)/100*100 = 90, critical
    have hsev : severityNums [(100 : ℚ), 10] = "critical" := by
      simp only [severityNums, List.foldl,
        show max (100 : ℚ) 10 = 100 from by norm_num [max_def],
        show min (100 : ℚ) 10 = 10 from by norm_num [min_def]]
      norm_num
    have hfm : (groupFacts c2db110 "s" "E" "A").filterMap
        (fun f => f.valueNumeric) = [(100 : ℚ), 10] := by decide
    have hkeys : conflictGroupKeys c2db110 "s" = [("E", "A")] := by decide
    rw [detectConflicts, hkeys]
    simp only [List.map_cons, List.map_nil, severityOf]
    rw [if_pos (by decide), hfm, hsev]
  · intro db sid e a
    rw [detectConflicts, List.countP_map]
    have hcomp : ((fun c : Conflict => decide (c.entity = e ∧ c.attr = a)) ∘
        (fun k : String × String =>
          ({ entity := k.1, attr := k.2, facts := groupFacts db sid k.1 k.2,
             conflictType := conflictTypeOf (groupFacts db sid k.1 k.2),
             severity := severityOf (groupFacts db sid k.1 k.2) } : Conflict))) =
        (fun k : String × String => decide (k.1 = e ∧ k.2 = a)) := rfl
    rw [hcomp]
    exact (countP_key_nodup e a _ ((List.nodup_dedup _).filter _)).trans
      (mem_conflictGroupKeys db sid e a)
  · intro db sid c hc
    obtain ⟨k, hk, hck⟩ := List.mem_map.mp hc
    constructor
    · intro v w rest hn
      have hfacts : c.facts = groupFacts db sid k.1 k.2 := by rw [← hck]
      have hsev : c.severity = severityOf (groupFacts db sid k.1 k.2) := by
        rw [← hck]
      rw [hfacts] at hn
      rw [hsev]
      exact severityOf_eq_claimSeverity _ v w rest hn
    · intro hlt
      have hsev : c.severity = severityOf c.facts := by rw [← hck]
      rw [hsev, severityOf]
      by_cases h₂ : 2 ≤ c.facts.length
      · rw [if_pos h₂]
        rcases hnl : c.facts.filterMap (fun f => f.valueNumeric) with _ | ⟨x, _ | ⟨y, t⟩⟩
        · rw [hnl]; rfl
        · rw [hnl]; rfl
        · rw [hnl] at hlt; simp only [List.length_cons] at hlt; omega
      · rw [if_neg h₂]

/-- Witness for C2: the count equivalence applied to the two-valued example and
the severity equation applied to the conflict reported on `c10db`. -/
theorem detectConflicts_spec_witness :
    ((detectConflicts c2dbTwo "s").countP
        (fun c => decide (c.entity = "E" ∧ c.attr = "A")) = 1) ∧
    c10conflict.severity = claimSeverity [0, 0] := by
  constructor
  · exact (detectConflicts_spec.2.2.2.2.1 c2dbTwo "s" "E" "A").mpr (by decide)
  · exact (detectConflicts_spec.2.2.2.2.2 c10db "s" c10conflict (by decide)).1
      0 0 [] (by decide)

/-! ### C5: the fact value parser -/

theorem parseValue_currency_eq (value : String) (num : List Char)
    (suffix : Option String) (ip fp k : Nat)
    (h₁ : currencyMatch (pyStrip value.data) = some (num, suffix))
    (h₂ : parseFloatParts (stripCommas num) = some (ip, fp, k)) :
    parseValue value =
      (some (normalizeCurrency suffix ((ip : ℚ) + (fp : ℚ) / (10 : ℚ) ^ k)),
       "currency", some (currencyUnit suffix)) := by
  rw [parseValue]
  simp only [h₁, pyFloat, h₂]
  rfl

/-- C5 (code bug exhibit): the currency magnitudes for the B, M and K suffixes
are normalized to billions as specified ($22.4B ↦ 22.4, 500M ↦ 0.5,
3K ↦ 0.000003), but a T suffix sets multiplier 1e12, which satisfies the first
branch `multiplier >= 1e9` of the normalization, so the trillion branch
`numeric * 1000` is unreachable and "2T" parses to 2 instead of the specified
2000; unmatched inputs do fall back to `text` with no numeric value. -/
theorem parseValue_trillion_not_normalized :
    parseValue "$22.4B" = (some (112/5), "currency", some "USD billion") ∧
    parseValue "500M" = (some (1/2), "currency", some "USD million") ∧
    parseValue "3K" = (some (3/1000000), "currency", some "USD thousand") ∧
    parseValue "2T" = (some 2, "currency", some "USD trillion") ∧
    (2 : ℚ) ≠ 2000 ∧
    (∀ s : String,
      currencyMatch (pyStrip s.data) = none →
      pctMatch (pyStrip s.data) = none →
      isDate (pyStrip s.data) = false →
      plainMatch (pyStrip s.data) = none →
      parseValue s = (none, "text", none)) := by
  refine ⟨?_, ?_, ?_, ?_, by norm_num, ?_⟩
  · rw [parseValue_currency_eq "$22.4B" ['2', '2', '.', '4'] (some "B") 22 4 1
      (by decide) (by decide)]
    simp only [normalizeCurrency, currencyMultiplier, currencyUnit]
    norm_num
  · rw [parseValue_currency_eq "500M" ['5', '0', '0'] (some "M") 500 0 0
      (by decide) (by decide)]
    simp only [normalizeCurrency, currencyMultiplier, currencyUnit]
    norm_num
  · rw [parseValue_currency_eq "3K" ['3'] (some "K") 3 0 0
      (by decide) (by decide)]
    simp only [normalizeCurrency, currencyMultiplier, currencyUnit]
    norm_num
  · rw [parseValue_currency_eq "2T" ['2'] (some "T") 2 0 0
      (by decide) (by decide)]
    simp only [normalizeCurrency, currencyMultiplier, currencyUnit]
    norm_num
  · intro s hc hp hd hpl
    rw [parseValue]
    simp only [hc, stagePct, hp, stageDatePlain, hd, hpl]
    rfl

/-- Witness for C5: the text fallback applied to a concrete unmatched input. -/
theorem parseValue_trillion_not_normalized_witness :
    parseValue "hello world" = (none, "text", none) :=
  parseValue_trillion_not_normalized.2.2.2.2.2 "hello world"
    (by decide) (by decide) (by decide) (by decide)

/-! ### C4: check_circuit_break -/

/-- C4 counterexample: with `consecutive_threshold = 0` the claim as stated
requires `should_break = true` (all zero of the most recently created children
vacuously score below the threshold, and the node has at least zero children),
but the code — whose Python slice `children_sorted[-0:]` selects every child —
inspects the single child scored 7 and returns `should_break = false` with
reason `scores_acceptable`. -/
theorem checkCircuitBreak_zero_threshold_counterexample :
    lastN 0 ((getChildren c4db "p").mergeSort createdOrder) = [] ∧
    (checkCircuitBreak c4db "p" 0 5).shouldBreak = false ∧
    (checkCircuitBreak c4db "p" 0 5).reason = "scores_acceptable" := by
  have hfil : c4db.nodes.filter (fun nd => decide (nd.parentId = some "p")) =
      [mkNode "c" (some "p") 7 "pending" 1 1] := by decide
  have hgc : getChildren c4db "p" = [mkNode "c" (some "p") 7 "pending" 1 1] := by
    rw [getChildren, hfil, List.mergeSort_singleton]
  refine ⟨?_, ?_, ?_⟩
  · rw [hgc, List.mergeSort_singleton]
    rfl
  · simp only [checkCircuitBreak, hgc, List.mergeSort_singleton]
    norm_num [pySliceLast, mkNode]
  · simp only [checkCircuitBreak, hgc, List.mergeSort_singleton]
    norm_num [pySliceLast, mkNode]

/-- C4 (amended to `consecutive_threshold ≥ 1`): `check_circuit_break` returns
`should_break = false` with reason `insufficient_data` whenever the node has
fewer than `consecutive_threshold` children; with at least that many children
it breaks exactly when all of the `consecutive_threshold` most recently
created children score strictly below the threshold, and then reports those
children's ids and their mean score. -/
theorem checkCircuitBreak_spec (db : DBState) (nid : String) (k : Nat) (θ : ℚ)
    (hk : 1 ≤ k) :
    ((getChildren db nid).length < k →
      checkCircuitBreak db nid k θ =
        { shouldBreak := false, reason := "insufficient_data",
          childrenCount := some (getChildren db nid).length }) ∧
    (k ≤ (getChildren db nid).length →
      ((checkCircuitBreak db nid k θ).shouldBreak = true ↔
        ∀ c ∈ lastN k ((getChildren db nid).mergeSort createdOrder), c.score < θ) ∧
      ((checkCircuitBreak db nid k θ).shouldBreak = true →
        (checkCircuitBreak db nid k θ).affectedNodes =
          some ((lastN k ((getChildren db nid).mergeSort createdOrder)).map
            (fun c => c.id)) ∧
        (checkCircuitBreak db nid k θ).avgScore =
          some (((lastN k ((getChildren db nid).mergeSort createdOrder)).map
              (fun c => c.score)).foldl (· + ·) 0 /
            (((lastN k ((getChildren db nid).mergeSort createdOrder)).map
              (fun c => c.score)).length : ℚ)))) := by
  constructor
  · intro hlt
    rw [checkCircuitBreak, if_pos hlt]
  · intro hge
    have hnotlt : ¬ (getChildren db nid).length < k := not_lt.mpr hge
    have hps : pySliceLast k ((getChildren db nid).mergeSort createdOrder) =
        lastN k ((getChildren db nid).mergeSort createdOrder) := by
      rw [pySliceLast, if_neg (by omega), lastN]
    have hiff : ((lastN k ((getChildren db nid).mergeSort createdOrder)).map
          (fun c => c.score)).all (fun s => decide (s < θ)) = true ↔
        ∀ c ∈ lastN k ((getChildren db nid).mergeSort createdOrder),
          c.score < θ := by
      rw [List.all_eq_true]
      constructor
      · intro h c hc
        exact of_decide_eq_true (h _ (List.mem_map_of_mem _ hc))
      · rintro h s hs
        obtain ⟨c, hc, rfl⟩ := List.mem_map.mp hs
        exact decide_eq_true (h c hc)
    simp only [checkCircuitBreak, if_neg hnotlt, hps]
    by_cases hall : ((lastN k ((getChildren db nid).mergeSort createdOrder)).map
        (fun c => c.score)).all (fun s => decide (s < θ)) = true
    · simp only [hall, if_true]
      exact ⟨Iff.intro (fun _ => hiff.mp hall) (fun _ => trivial),
        fun _ => ⟨trivial, trivial⟩⟩
    · simp only [Bool.not_eq_true] at hall
      simp only [hall, if_false]
      refine ⟨Iff.intro (fun h => absurd h (by simp)) ?_, fun h => absurd h (by simp)⟩
      intro h
      rw [hiff.mpr h] at hall
      exact absurd hall (by simp)

/-- Witness for C4: a parent with three children scored 1, 2 and 3, threshold
3 and score threshold 5, breaks the circuit. -/
theorem checkCircuitBreak_spec_witness :
    3 ≤ (getChildren c4db₃ "p").length ∧
    (checkCircuitBreak c4db₃ "p" 3 5).shouldBreak = true := by
  have hfil : c4db₃.nodes.filter (fun nd => decide (nd.parentId = some "p")) =
      [mkNode "c1" (some "p") 1 "pending" 1 1,
       mkNode "c2" (some "p") 2 "pending" 1 2,
       mkNode "c3" (some "p") 3 "pending" 1 3] := by decide
  have hgc : getChildren c4db₃ "p" =
      [mkNode "c3" (some "p") 3 "pending" 1 3,
       mkNode "c2" (some "p") 2 "pending" 1 2,
       mkNode "c1" (some "p") 1 "pending" 1 1] := by
    rw [getChildren, hfil]
    norm_num [List.mergeSort, childOrder, mkNode]
  have hsorted : (getChildren c4db₃ "p").mergeSort createdOrder =
      [mkNode "c1" (some "p") 1 "pending" 1 1,
       mkNode "c2" (some "p") 2 "pending" 1 2,
       mkNode "c3" (some "p") 3 "pending" 1 3] := by
    rw [hgc]
    norm_num [List.mergeSort, createdOrder, mkNode]
  have hlen : 3 ≤ (getChildren c4db₃ "p").length := by
    rw [hgc]
    norm_num
  refine ⟨hlen, ((checkCircuitBreak_spec c4db₃ "p" 3 5 (by decide)).2 hlen).1.mpr ?_⟩
  rw [hsorted]
  intro c hc
  fin_cases hc <;> norm_num [mkNode]

/-! ### C3: the depth invariant -/

theorem depthInvariant_sublist {l₁ l₂ : List Node} (h : l₁.Sublist l₂)
    (hinv : depthInvariant l₂) : depthInvariant l₁ := by
  intro n hn p hp hnp
  exact hinv n (h.subset hn) p (h.subset hp) hnp

theorem depthInvariant_map {f : Node → Node}
    (hpres : ∀ nd, (f nd).id = nd.id ∧ (f nd).parentId = nd.parentId ∧
      (f nd).depth = nd.depth)
    {l : List Node} (hinv : depthInvariant l) : depthInvariant (l.map f) := by
  intro n hn p hp hnp
  obtain ⟨n₀, hn₀, rfl⟩ := List.mem_map.mp hn
  obtain ⟨p₀, hp₀, rfl⟩ := List.mem_map.mp hp
  rw [(hpres n₀).2.2, (hpres p₀).2.2]
  apply hinv n₀ hn₀ p₀ hp₀
  rw [← (hpres p₀).1, ← (hpres n₀).2.1]
  exact hnp

theorem depthInvariant_updateNode (db : DBState) (hinv : depthInvariant db.nodes)
    (nodeId : String) (content : Option String) (score : Option ℚ)
    (status meta : Option String) :
    depthInvariant (updateNode db nodeId content score status meta).1.nodes := by
  rw [updateNode]
  by_cases h : content = none ∧ score = none ∧ status = none ∧ meta = none
  · rw [if_pos h]; exact hinv
  · rw [if_neg h]
    apply depthInvariant_map _ hinv
    intro nd
    by_cases hid : nd.id = nodeId <;> simp [hid]

/-- C3 counterexample: `create_node` stores the caller-supplied depth without
validation, so creating a child of the depth-0 root with depth 5 succeeds and
leaves a state violating `depth(child) = depth(parent) + 1`. -/
theorem createNode_depth_unchecked_counterexample :
    (createNode (createNode DBState.empty "r" "root" none 0 0 none).1
      "c" "child" (some "r") 0 5 none).2 = true ∧
    ¬ depthInvariant c3db.nodes := by
  exact ⟨by decide, by decide⟩

/-- C3 (amended): the store operations preserve the depth invariant rather
than enforce it — `update_node`, `keep_best_n` and `execute_circuit_break`
never change a depth or parent link, and `create_node` preserves the invariant
exactly when the caller passes a depth of `parent.depth + 1` (with no
self-parenting and no dangling references onto the new id); the unamended
invariant fails because `create_node` accepts any caller-supplied depth. -/
theorem depthInvariant_preserved (db : DBState) (hinv : depthInvariant db.nodes) :
    (∀ (nodeId content : String) (parentId : Option String) (score : ℚ)
        (depth : Int) (meta : Option String),
      parentId ≠ some nodeId →
      (∀ c ∈ db.nodes, c.parentId ≠ some nodeId) →
      (∀ p ∈ db.nodes, parentId = some p.id → depth = p.depth + 1) →
      depthInvariant (createNode db nodeId content parentId score depth meta).1.nodes) ∧
    (∀ (nodeId : String) (content : Option String) (score : Option ℚ)
        (status meta : Option String),
      depthInvariant (updateNode db nodeId content score status meta).1.nodes) ∧
    (∀ (n : Nat) (parentId : Option String),
      depthInvariant (keepBestN db n parentId).1.nodes) ∧
    (∀ (nodeId reason : String),
      depthInvariant (executeCircuitBreak db nodeId reason).1.nodes) := by
  refine ⟨?_, fun nodeId c s st m => depthInvariant_updateNode db hinv nodeId c s st m,
    ?_, ?_⟩
  · intro nodeId content parentId score depth meta hself horphan hdepth
    rw [createNode]
    by_cases hdup : db.nodes.any (fun nd => decide (nd.id = nodeId)) = true
    · rw [if_pos hdup]; exact hinv
    · rw [if_neg hdup]
      intro n hn p hp hnp
      rcases List.mem_append.mp hn with hn' | hn'
      · rcases List.mem_append.mp hp with hp' | hp'
        · exact hinv n hn' p hp' hnp
        · rw [List.mem_singleton] at hp'
          subst hp'
          exact absurd hnp (horphan n hn')
      · rw [List.mem_singleton] at hn'
        subst hn'
        rcases List.mem_append.mp hp with hp' | hp'
        · exact hdepth p hp' hnp
        · rw [List.mem_singleton] at hp'
          subst hp'
          exact absurd hnp hself
  · intro n parentId
    cases parentId with
    | none =>
      simp only [keepBestN]
      split
      · exact hinv
      · exact depthInvariant_sublist (List.filter_sublist _) hinv
    | some pid =>
      simp only [keepBestN]
      split
      · exact hinv
      · exact depthInvariant_sublist (List.filter_sublist _) hinv
  · intro nodeId reason
    simp only [executeCircuitBreak]
    cases hg : getNode db nodeId with
    | some nd =>
      simp only [hg]
      exact depthInvariant_sublist (List.filter_sublist _)
        (depthInvariant_updateNode db hinv nodeId none none
          (some "circuit_broken") (some reason))
    | none =>
      simp only [hg]
      exact depthInvariant_sublist (List.filter_sublist _) hinv

/-- Witness for C3: on a consistent root-plus-child state, all four store
operations yield states still satisfying the invariant. -/
theorem depthInvariant_preserved_witness :
    depthInvariant c3good.nodes ∧
    depthInvariant (createNode c3good "d" "x" (some "c") 0 2 none).1.nodes ∧
    depthInvariant (updateNode c3good "c" none (some 8) none none).1.nodes ∧
    depthInvariant (keepBestN c3good 1 (some "r")).1.nodes ∧
    depthInvariant (executeCircuitBreak c3good "c" "low").1.nodes := by
  have hinv : depthInvariant c3good.nodes := by decide
  exact ⟨hinv,
    (depthInvariant_preserved c3good hinv).1 "d" "x" (some "c") 0 2 none
      (by decide) (by decide) (by decide),
    (depthInvariant_preserved c3good hinv).2.1 "c" none (some 8) none none,
    (depthInvariant_preserved c3good hinv).2.2.1 1 (some "r"),
    (depthInvariant_preserved c3good hinv).2.2.2 "c" "low"⟩

/-! ### C1: keep_best_n -/

theorem scoreDesc_trans : ∀ a b c : Node,
    scoreDesc a b = true → scoreDesc b c = true → scoreDesc a c = true := by
  intro a b c hab hbc
  simp only [scoreDesc, decide_eq_true_eq] at *
  exact le_trans hbc hab

theorem scoreDesc_total : ∀ a b : Node, (scoreDesc a b || scoreDesc b a) = true := by
  intro a b
  simp only [scoreDesc, Bool.or_eq_true, decide_eq_true_eq]
  exact le_total b.score a.score

/-- Core property of `SELECT id ... ORDER BY score DESC LIMIT n` followed by
`DELETE ... WHERE id NOT IN (...)` over a list with distinct ids: exactly
`min n length` rows survive, the others are deleted, and every survivor scores
at least as high as every deleted row. -/
theorem keep_core (l : List Node) (n : Nat)
    (hnd : (l.map (fun nd => nd.id)).Nodup) :
    ((l.filter (fun nd =>
        decide (nd.id ∈ ((l.mergeSort scoreDesc).take n).map (fun x => x.id)))).length
      = min n l.length) ∧
    ((l.filter (fun nd =>
        decide (¬ nd.id ∈ ((l.mergeSort scoreDesc).take n).map (fun x => x.id)))).length
      = l.length - min n l.length) ∧
    (∀ c ∈ l, c.id ∈ ((l.mergeSort scoreDesc).take n).map (fun x => x.id) →
     ∀ d ∈ l, ¬ d.id ∈ ((l.mergeSort scoreDesc).take n).map (fun x => x.id) →
       d.score ≤ c.score) := by
  have hperm : (l.mergeSort scoreDesc).Perm l := List.mergeSort_perm l scoreDesc
  have hndS : ((l.mergeSort scoreDesc).map (fun nd => nd.id)).Nodup :=
    ((hperm.map (fun nd => nd.id)).nodup_iff).mpr hnd
  set K := ((l.mergeSort scoreDesc).take n).map (fun x => x.id) with hK
  have hndSplit := hndS
  rw [← List.take_append_drop n (l.mergeSort scoreDesc), List.map_append,
    List.nodup_append] at hndSplit
  obtain ⟨-, -, hdisj⟩ := hndSplit
  -- membership in the keep-id list puts an element of the sorted list in the
  -- taken prefix, and excludes it from the dropped suffix
  have htakeId : ∀ c ∈ (l.mergeSort scoreDesc).take n, c.id ∈ K := by
    intro c hc
    rw [hK]
    exact List.mem_map_of_mem _ hc
  have hdropId : ∀ d ∈ (l.mergeSort scoreDesc).drop n, ¬ d.id ∈ K := by
    intro d hd hdid
    rw [hK] at hdid
    exact hdisj hdid (List.mem_map_of_mem _ hd)
  have hmemSplit : ∀ x ∈ l, x.id ∈ K → x ∈ (l.mergeSort scoreDesc).take n := by
    intro x hx hid
    have hxs : x ∈ l.mergeSort scoreDesc := hperm.mem_iff.mpr hx
    rw [← List.take_append_drop n (l.mergeSort scoreDesc)] at hxs
    rcases List.mem_append.mp hxs with h | h
    · exact h
    · exact absurd hid (hdropId x h)
  have hcount : l.countP (fun nd => decide (nd.id ∈ K)) = min n l.length := by
    rw [← List.Perm.countP_eq _ hperm]
    conv_lhs => rw [← List.take_append_drop n (l.mergeSort scoreDesc)]
    rw [List.countP_append]
    have h₁ : ((l.mergeSort scoreDesc).take n).countP
        (fun nd => decide (nd.id ∈ K)) = ((l.mergeSort scoreDesc).take n).length :=
      List.countP_eq_length.mpr (fun a ha => decide_eq_true (htakeId a ha))
    have h₂ : ((l.mergeSort scoreDesc).drop n).countP
        (fun nd => decide (nd.id ∈ K)) = 0 :=
      List.countP_eq_zero.mpr (fun a ha => by
        simp only [decide_eq_true_eq]
        exact hdropId a ha)
    rw [h₁, h₂, List.length_take, hperm.length_eq]
    omega
  have hcountNot : l.countP (fun nd => decide (¬ nd.id ∈ K)) =
      l.length - min n l.length := by
    rw [← List.Perm.countP_eq _ hperm]
    conv_lhs => rw [← List.take_append_drop n (l.mergeSort scoreDesc)]
    rw [List.countP_append]
    have h₁ : ((l.mergeSort scoreDesc).take n).countP
        (fun nd => decide (¬ nd.id ∈ K)) = 0 :=
      List.countP_eq_zero.mpr (fun a ha => by
        simp only [decide_eq_true_eq, not_not]
        exact htakeId a ha)
    have h₂ : ((l.mergeSort scoreDesc).drop n).countP
        (fun nd => decide (¬ nd.id ∈ K)) =
        ((l.mergeSort scoreDesc).drop n).length :=
      List.countP_eq_length.mpr (fun a ha => decide_eq_true (hdropId a ha))
    rw [h₁, h₂, List.length_drop, hperm.length_eq]
    omega
  refine ⟨?_, ?_, ?_⟩
  · rw [← List.countP_eq_length_filter]
    exact hcount
  · rw [← List.countP_eq_length_filter]
    exact hcountNot
  · intro c hc hcid d hd hdid
    have hcs : c ∈ (l.mergeSort scoreDesc).take n := hmemSplit c hc hcid
    have hds : d ∈ l.mergeSort scoreDesc := hperm.mem_iff.mpr hd
    rw [← List.take_append_drop n (l.mergeSort scoreDesc)] at hds
    rcases List.mem_append.mp hds with h | h
    · exact absurd (htakeId d h) hdid
    · have hsort := List.sorted_mergeSort scoreDesc_trans scoreDesc_total l
      rw [← List.take_append_drop n (l.mergeSort scoreDesc)] at hsort
      have := (List.pairwise_append.mp hsort).2.2 c hcs d h
      exact of_decide_eq_true this

theorem keepBestN_parent_eq (db : DBState) (n : Nat) (pid : String)
    (hne : parentKeepIds db n pid ≠ []) :
    keepBestN db n (some pid) =
      ({ db with
          nodes := db.nodes.filter (parentSurvives db n pid),
          totalChanges := db.totalChanges +
            (db.nodes.length - (db.nodes.filter (parentSurvives db n pid)).length) },
       db.nodes.length - (db.nodes.filter (parentSurvives db n pid)).length) := by
  simp only [keepBestN, parentSurvives, parentKeepIds]
  rw [if_neg (by simpa [parentKeepIds] using hne)]
  rfl

theorem keepBestN_parent_empty (db : DBState) (n : Nat) (pid : String)
    (he : parentKeepIds db n pid = []) :
    keepBestN db n (some pid) = (db, 0) := by
  simp only [keepBestN]
  rw [if_pos (by simpa [parentKeepIds] using he)]

theorem keepBestN_global_eq (db : DBState) (n : Nat)
    (hne : globalKeepIds db n ≠ []) :
    keepBestN db n none =
      ({ db with
          nodes := db.nodes.filter (globalSurvives db n),
          totalChanges := db.totalChanges +
            (db.nodes.length - (db.nodes.filter (globalSurvives db n)).length) },
       db.nodes.length - (db.nodes.filter (globalSurvives db n)).length) := by
  simp only [keepBestN, globalSurvives, globalKeepIds]
  rw [if_neg (by simpa [globalKeepIds] using hne)]
  rfl

theorem keepBestN_global_empty (db : DBState) (n : Nat)
    (he : globalKeepIds db n = []) :
    keepBestN db n none = (db, 0) := by
  simp only [keepBestN]
  rw [if_pos (by simpa [globalKeepIds] using he)]

/-- C1 (amended): for `n ≥ 1`, `keep_best_n(n, parent_id?)` permanently
deletes — rather than marking PRUNED — every node in scope outside the top-n
by score, considering all nodes in the scope regardless of status; it leaves
exactly `min(n, scope size)` nodes in scope, each scoring at least as much as
every deleted node of the scope, returns the number of deleted rows, and (in
the scoped form) leaves nodes outside the scope untouched. -/
theorem keepBestN_spec (db : DBState) (n : Nat) (pid : String) (hn : 1 ≤ n)
    (hnd : (db.nodes.map (fun nd => nd.id)).Nodup) :
    (((keepBestN db n (some pid)).1.nodes.filter
        (fun nd => decide (nd.parentId = some pid))).length =
      min n (db.nodes.filter (fun nd => decide (nd.parentId = some pid))).length) ∧
    ((keepBestN db n (some pid)).2 =
      (db.nodes.filter (fun nd => decide (nd.parentId = some pid))).length -
        min n (db.nodes.filter (fun nd => decide (nd.parentId = some pid))).length) ∧
    (∀ c ∈ (keepBestN db n (some pid)).1.nodes, c.parentId = some pid →
     ∀ d ∈ db.nodes, d.parentId = some pid →
       d ∉ (keepBestN db n (some pid)).1.nodes → d.score ≤ c.score) ∧
    ((keepBestN db n (some pid)).1.nodes.filter
        (fun nd => decide (¬ nd.parentId = some pid)) =
      db.nodes.filter (fun nd => decide (¬ nd.parentId = some pid))) ∧
    ((keepBestN db n none).1.nodes.length = min n db.nodes.length) ∧
    ((keepBestN db n none).2 = db.nodes.length - min n db.nodes.length) ∧
    (∀ c ∈ (keepBestN db n none).1.nodes, ∀ d ∈ db.nodes,
      d ∉ (keepBestN db n none).1.nodes → d.score ≤ c.score) := by
  have hndScope : ((db.nodes.filter
      (fun nd => decide (nd.parentId = some pid))).map (fun nd => nd.id)).Nodup :=
    List.Nodup.sublist (List.Sublist.map _ (List.filter_sublist _)) hnd
  obtain ⟨hkc₁, hkc₂, hkc₃⟩ :=
    keep_core (db.nodes.filter (fun nd => decide (nd.parentId = some pid))) n hndScope
  obtain ⟨hgc₁, hgc₂, hgc₃⟩ := keep_core db.nodes n hnd
  have hparent :
      (((keepBestN db n (some pid)).1.nodes.filter
          (fun nd => decide (nd.parentId = some pid))).length =
        min n (db.nodes.filter (fun nd => decide (nd.parentId = some pid))).length) ∧
      ((keepBestN db n (some pid)).2 =
        (db.nodes.filter (fun nd => decide (nd.parentId = some pid))).length -
          min n (db.nodes.filter (fun nd => decide (nd.parentId = some pid))).length) ∧
      (∀ c ∈ (keepBestN db n (some pid)).1.nodes, c.parentId = some pid →
       ∀ d ∈ db.nodes, d.parentId = some pid →
         d ∉ (keepBestN db n (some pid)).1.nodes → d.score ≤ c.score) ∧
      ((keepBestN db n (some pid)).1.nodes.filter
          (fun nd => decide (¬ nd.parentId = some pid)) =
        db.nodes.filter (fun nd => decide (¬ nd.parentId = some pid))) := by
    by_cases hemp : parentKeepIds db n pid = []
    · have hres := keepBestN_parent_empty db n pid hemp
      have hscope : db.nodes.filter (fun nd => decide (nd.parentId = some pid)) = [] := by
        rw [parentKeepIds] at hemp
        rcases List.take_eq_nil_iff.mp (List.map_eq_nil_iff.mp hemp) with h | h
        · omega
        · have hp := List.mergeSort_perm
            (db.nodes.filter (fun nd => decide (nd.parentId = some pid))) scoreDesc
          rw [h] at hp
          exact (hp.symm).eq_nil
      rw [hres]
      refine ⟨?_, ?_, ?_, rfl⟩
      · rw [hscope]; simp
      · rw [hscope]; simp
      · intro c hc hcp d hd hdp hdn
        have hmem : c ∈ db.nodes.filter (fun nd => decide (nd.parentId = some pid)) :=
          List.mem_filter.mpr ⟨hc, decide_eq_true hcp⟩
        rw [hscope] at hmem
        exact absurd hmem (List.not_mem_nil c)
    · have hres := keepBestN_parent_eq db n pid hemp
      have hff : (db.nodes.filter (parentSurvives db n pid)).filter
          (fun nd => decide (nd.parentId = some pid)) =
          (db.nodes.filter (fun nd => decide (nd.parentId = some pid))).filter
            (fun nd => decide (nd.id ∈ parentKeepIds db n pid)) := by
        rw [List.filter_filter, List.filter_filter]
        apply List.filter_congr
        intro nd _
        by_cases hp : nd.parentId = some pid <;>
          by_cases hk : nd.id ∈ parentKeepIds db n pid <;>
            simp [parentSurvives, hp, hk]
      have hnot : db.nodes.filter (fun nd => !(parentSurvives db n pid nd)) =
          (db.nodes.filter (fun nd => decide (nd.parentId = some pid))).filter
            (fun nd => decide (¬ nd.id ∈ parentKeepIds db n pid)) := by
        rw [List.filter_filter]
        apply List.filter_congr
        intro nd _
        by_cases hp : nd.parentId = some pid <;>
          by_cases hk : nd.id ∈ parentKeepIds db n pid <;>
            simp [parentSurvives, hp, hk]
      refine ⟨?_, ?_, ?_, ?_⟩
      · rw [hres]
        show ((db.nodes.filter (parentSurvives db n pid)).filter
            (fun nd => decide (nd.parentId = some pid))).length = _
        rw [hff]
        exact hkc₁
      · rw [hres]
        show db.nodes.length - (db.nodes.filter (parentSurvives db n pid)).length = _
        have hlen := length_filter_add_length_filter_not (parentSurvives db n pid) db.nodes
        have h₂ : (db.nodes.filter (fun nd => !(parentSurvives db n pid nd))).length =
            (db.nodes.filter (fun nd => decide (nd.parentId = some pid))).length -
              min n (db.nodes.filter (fun nd => decide (nd.parentId = some pid))).length := by
          rw [hnot]
          exact hkc₂
        have h₃ : min n (db.nodes.filter
            (fun nd => decide (nd.parentId = some pid))).length ≤
            (db.nodes.filter (fun nd => decide (nd.parentId = some pid))).length :=
          Nat.min_le_right _ _
        omega
      · rw [hres]
        intro c hc hcp d hd hdp hdn
        obtain ⟨hcdb, hcs⟩ := List.mem_filter.mp hc
        have hck : c.id ∈ parentKeepIds db n pid := by
          simp only [parentSurvives, decide_eq_true_eq] at hcs
          rcases hcs with h | h
          · exact absurd hcp h
          · exact h
        have hdk : ¬ d.id ∈ parentKeepIds db n pid := by
          intro hk
          exact hdn (List.mem_filter.mpr ⟨hd, by simp [parentSurvives, hk]⟩)
        exact hkc₃ c (List.mem_filter.mpr ⟨hcdb, decide_eq_true hcp⟩) hck
          d (List.mem_filter.mpr ⟨hd, decide_eq_true hdp⟩) hdk
      · rw [hres]
        show (db.nodes.filter (parentSurvives db n pid)).filter
            (fun nd => decide (¬ nd.parentId = some pid)) = _
        rw [List.filter_filter]
        apply List.filter_congr
        intro nd _
        by_cases hp : nd.parentId = some pid <;> simp [parentSurvives, hp]
  have hglobal :
      ((keepBestN db n none).1.nodes.length = min n db.nodes.length) ∧
      ((keepBestN db n none).2 = db.nodes.length - min n db.nodes.length) ∧
      (∀ c ∈ (keepBestN db n none).1.nodes, ∀ d ∈ db.nodes,
        d ∉ (keepBestN db n none).1.nodes → d.score ≤ c.score) := by
    by_cases hemp : globalKeepIds db n = []
    · have hres := keepBestN_global_empty db n hemp
      have hnil : db.nodes = [] := by
        rw [globalKeepIds] at hemp
        rcases List.take_eq_nil_iff.mp (List.map_eq_nil_iff.mp hemp) with h | h
        · omega
        · have hp := List.mergeSort_perm db.nodes scoreDesc
          rw [h] at hp
          exact (hp.symm).eq_nil
      rw [hres]
      refine ⟨by rw [hnil]; simp, by rw [hnil]; simp, ?_⟩
      intro c hc d hd hdn
      rw [hnil] at hc
      exact absurd hc (List.not_mem_nil c)
    · have hres := keepBestN_global_eq db n hemp
      refine ⟨?_, ?_, ?_⟩
      · rw [hres]
        exact hgc₁
      · rw [hres]
        show db.nodes.length - (db.nodes.filter (globalSurvives db n)).length = _
        have h₁ : (db.nodes.filter (globalSurvives db n)).length =
            min n db.nodes.length := hgc₁
        have h₂ : min n db.nodes.length ≤ db.nodes.length := Nat.min_le_right _ _
        omega
      · rw [hres]
        intro c hc d hd hdn
        obtain ⟨hcdb, hcs⟩ := List.mem_filter.mp hc
        have hck : c.id ∈ globalKeepIds db n := by
          simpa only [globalSurvives, decide_eq_true_eq] using hcs
        have hdk : ¬ d.id ∈ globalKeepIds db n := by
          intro hk
          exact hdn (List.mem_filter.mpr ⟨hd, by simp [globalSurvives, hk]⟩)
        exact hgc₃ c hcdb hck d hd hdk
  exact ⟨hparent.1, hparent.2.1, hparent.2.2.1, hparent.2.2.2,
    hglobal.1, hglobal.2.1, hglobal.2.2⟩

/-- C1 counterexample: on the end-to-end scenario (root `r`, children scored
9, 4 and 3.5, the first two ACTIVE and the third already PRUNED),
`keep_best_n(1, "r")` does not mark the losing children PRUNED and retain
them — it deletes both rows (including the non-active `c3`, which the claim
says is outside the scope), leaving only `r` and `c1` and reporting 2
deletions; no node in the result carries status `pruned`. -/
theorem keepBestN_deletes_instead_of_pruning :
    ((keepBestN c1db 1 (some "r")).1.nodes.map (fun nd => nd.id) = ["r", "c1"]) ∧
    ((keepBestN c1db 1 (some "r")).2 = 2) ∧
    ((keepBestN c1db 1 (some "r")).1.nodes.filter
        (fun nd => decide (nd.status = "pruned")) = []) := by
  have hfil : c1db.nodes.filter (fun nd => decide (nd.parentId = some "r")) =
      [mkNode "c1" (some "r") 9 "active" 1 1,
       mkNode "c2" (some "r") 4 "active" 1 2,
       mkNode "c3" (some "r") (mkRat 7 2) "pruned" 1 3] := by decide
  have hsort : ([mkNode "c1" (some "r") 9 "active" 1 1,
       mkNode "c2" (some "r") 4 "active" 1 2,
       mkNode "c3" (some "r") (mkRat 7 2) "pruned" 1 3] : List Node).mergeSort scoreDesc =
      [mkNode "c1" (some "r") 9 "active" 1 1,
       mkNode "c2" (some "r") 4 "active" 1 2,
       mkNode "c3" (some "r") (mkRat 7 2) "pruned" 1 3] := by
    norm_num [List.mergeSort, scoreDesc, mkNode, Rat.mkRat_eq_div]
  have hkeep : parentKeepIds c1db 1 "r" = ["c1"] := by
    rw [parentKeepIds, hfil, hsort]
    rfl
  have hsurv : c1db.nodes.filter (parentSurvives c1db 1 "r") =
      [mkNode "r" none 5 "active" 0 0, mkNode "c1" (some "r") 9 "active" 1 1] := by
    unfold parentSurvives
    simp only [hkeep]
    decide
  have hres := keepBestN_parent_eq c1db 1 "r" (by rw [hkeep]; simp)
  rw [hres, hsurv]
  refine ⟨by decide, by decide, by decide⟩

/-- Witness for C1: the scenario state has distinct ids and the amended
theorem applies to it with n = 1. -/
theorem keepBestN_spec_witness :
    (c1db.nodes.map (fun nd => nd.id)).Nodup ∧
    ((keepBestN c1db 1 (some "r")).1.nodes.filter
        (fun nd => decide (nd.parentId = some "r"))).length =
      min 1 (c1db.nodes.filter (fun nd => decide (nd.parentId = some "r"))).length :=
  ⟨by decide, (keepBestN_spec c1db 1 "r" le_rfl (by decide)).1⟩

end Research
